import Mathlib

/-!
Verification of the response-classification and human-in-the-loop (HITL)
budget-approval logic of the travel-chat component
(`src/components/travel-chat.tsx`).

The embedding models:
* JSON values (`Json`), with JavaScript numbers restricted to integers
  (every numeric literal occurring in the program's payloads is integral);
* JavaScript truthiness (`truthy`) and property access (`getField`);
* the four payload-shape predicates of `extractDataFromMessages`;
* the approval-state map (`ApprovalMap`, a JS object modelled as an
  association list with replace-or-append update, mirroring
  `{...prev, [budgetKey]: v}`);
* a JSON parser (`parseJson`) modelling `JSON.parse` on the fragment of
  JSON the program exchanges (objects, arrays, strings without `\u`
  escapes, integral numbers, booleans, null); `none` stands for a thrown
  `SyntaxError`, which the component catches;
* the scan `extractDataFromMessages` over the visible-message stream,
  with callback invocations reified as an ordered list of `Emit` values.
-/

/-- A JSON value. JavaScript numbers are modelled as integers: all
numeric payload fields in the program (totals, amounts, percentages)
are integral, and no claim depends on non-integral numerics. -/
inductive Json where
  | jnull
  | jbool (b : Bool)
  | jnum (n : Int)
  | jstr (s : String)
  | jarr (elems : List Json)
  | jobj (fields : List (String × Json))

/-- JavaScript truthiness of the value of a property access, where
`none` stands for `undefined` (absent property). `0`, `""`, `null`,
`false` and `undefined` are falsy; objects and arrays (even empty)
are truthy. The `Int` model has no `NaN`. -/
def truthy : Option Json → Bool
  | none => false
  | some .jnull => false
  | some (.jbool b) => b
  | some (.jnum n) => n != 0
  | some (.jstr s) => s != ""
  | some (.jarr _) => true
  | some (.jobj _) => true

/-- JavaScript property access `v[key]`: a named field of an object,
`undefined` (`none`) otherwise. -/
def getField (v : Json) (key : String) : Option Json :=
  match v with
  | .jobj fields => (fields.find? (fun f => f.1 == key)).map (·.2)
  | _ => none

/-- The `Array.isArray` test applied to a property-access result. -/
def isArray : Option Json → Bool
  | some (.jarr _) => true
  | _ => false

/-- Shape predicate of the first classifier branch:
`parsed.destination && parsed.itinerary && Array.isArray(parsed.itinerary)`. -/
def itineraryShape (parsed : Json) : Bool :=
  truthy (getField parsed "destination") && truthy (getField parsed "itinerary")
    && isArray (getField parsed "itinerary")

/-- Shape predicate of the second classifier branch:
`parsed.totalBudget && parsed.breakdown && Array.isArray(parsed.breakdown)`. -/
def budgetShape (parsed : Json) : Bool :=
  truthy (getField parsed "totalBudget") && truthy (getField parsed "breakdown")
    && isArray (getField parsed "breakdown")

/-- Shape predicate of the third classifier branch:
`parsed.destination && parsed.forecast && Array.isArray(parsed.forecast)`. -/
def weatherShape (parsed : Json) : Bool :=
  truthy (getField parsed "destination") && truthy (getField parsed "forecast")
    && isArray (getField parsed "forecast")

/-- Shape predicate of the fourth classifier branch:
`parsed.destination && parsed.meals && Array.isArray(parsed.meals)`. -/
def restaurantShape (parsed : Json) : Bool :=
  truthy (getField parsed "destination") && truthy (getField parsed "meals")
    && isArray (getField parsed "meals")

mutual

/-- JavaScript string coercion of a JSON value, as used by the template
literal in the budget key. Arrays stringify element-wise joined by
commas with `null` becoming empty, plain objects as `[object Object]`. -/
def jsToString : Json → String
  | .jnull => "null"
  | .jbool true => "true"
  | .jbool false => "false"
  | .jnum n => toString n
  | .jstr s => s
  | .jarr xs => String.intercalate "," (jsToStringElems xs)
  | .jobj _ => "[object Object]"

/-- Element-wise stringification for array coercion. -/
def jsToStringElems : List Json → List String
  | [] => []
  | .jnull :: xs => "" :: jsToStringElems xs
  | x :: xs => jsToString x :: jsToStringElems xs

end

/-- JavaScript string coercion of a property-access result (`undefined`
coerces to the string `"undefined"`). -/
def jsToStringOpt : Option Json → String
  | none => "undefined"
  | some v => jsToString v

/-- The budget key of a parsed payload:
`` `budget-${parsed.totalBudget}` ``. -/
def deriveKey (parsed : Json) : String :=
  "budget-" ++ jsToStringOpt (getField parsed "totalBudget")

/-- One record of the approval-state map:
`{ approved: boolean; rejected: boolean }`. -/
structure ApprovalRec where
  approved : Bool
  rejected : Bool
deriving DecidableEq, Repr

/-- The approval-state map `Record<string, ApprovalRec>` held in the
`approvalStates` React state, modelled as an association list with
unique keys in insertion order, as a JS object holds its properties. -/
abbrev ApprovalMap := List (String × ApprovalRec)

/-- Property lookup `approvalStates[key]`: the record stored at `key`,
or `undefined` (`none`). -/
def getRec (m : ApprovalMap) (k : String) : Option ApprovalRec :=
  (m.find? (fun e => e.1 == k)).map (·.2)

/-- Defaulted read `approvalStates[budgetKey] || { approved: false, rejected: false }`
used by the approval widget. -/
def getState (m : ApprovalMap) (k : String) : ApprovalRec :=
  (getRec m k).getD ⟨false, false⟩

/-- The spread update `{...prev, [budgetKey]: v}` on a JS object:
replace the value at an existing key in place, otherwise append the
new property last. -/
def setKey (m : ApprovalMap) (k : String) (v : ApprovalRec) : ApprovalMap :=
  if m.any (fun e => e.1 == k) then
    m.map (fun e => if e.1 == k then (k, v) else e)
  else m ++ [(k, v)]

/-- The approve-button handler:
`setApprovalStates((prev) => ({...prev, [budgetKey]: { approved: true, rejected: false }}))`. -/
def recordApproval (m : ApprovalMap) (k : String) : ApprovalMap :=
  setKey m k ⟨true, false⟩

/-- The reject-button handler:
`setApprovalStates((prev) => ({...prev, [budgetKey]: { approved: false, rejected: true }}))`. -/
def recordRejection (m : ApprovalMap) (k : String) : ApprovalMap :=
  setKey m k ⟨false, true⟩

/-- The classifier's gate read
`approvalStates[budgetKey]?.approved || false`. -/
def isApprovedIn (m : ApprovalMap) (k : String) : Bool :=
  ((getRec m k).map (·.approved)).getD false

/-- A callback invocation pushed to the parent component. The weather
branch additionally stores the payload in local component state
(`setWeatherData`); that local mirror is not part of the claims and is
not modelled. -/
inductive Emit where
  | itineraryUpdate (d : Json)
  | budgetUpdate (d : Json)
  | weatherUpdate (d : Json)
  | restaurantUpdate (d : Json)

/-- The classification chain of `extractDataFromMessages` applied to a
parsed value (the `if (parsed)` guard and the four `if/else if`
branches), returning the callback invocations it performs, in order.
Only the budget branch is gated on the approval state. -/
def processParsed (approvalStates : ApprovalMap) (parsed : Json) : List Emit :=
  if truthy (some parsed) then
    if itineraryShape parsed then
      [.itineraryUpdate parsed]
    else if budgetShape parsed then
      if isApprovedIn approvalStates (deriveKey parsed) then
        [.budgetUpdate parsed]
      else []
    else if weatherShape parsed then
      [.weatherUpdate parsed]
    else if restaurantShape parsed then
      [.restaurantUpdate parsed]
    else []
  else []

/-- Whitespace characters skipped by `JSON.parse` between tokens. -/
def isJsonWs (c : Char) : Bool :=
  c == ' ' || c == '\t' || c == '\n' || c == '\r'

/-- Skip leading JSON whitespace. -/
def skipWs : List Char → List Char
  | [] => []
  | c :: cs => if isJsonWs c then skipWs cs else c :: cs

/-- Numeric value of a decimal digit character, if it is one. -/
def digitVal (c : Char) : Option Nat :=
  if '0' ≤ c && c ≤ '9' then some (c.toNat - '0'.toNat) else none

/-- Split off the longest leading run of decimal digits. -/
def takeDigits : List Char → List Nat × List Char
  | [] => ([], [])
  | c :: cs =>
    match digitVal c with
    | some d =>
      let p := takeDigits cs
      (d :: p.1, p.2)
    | none => ([], c :: cs)

/-- Decimal value of a digit list (most significant first). -/
def digitsToNat (ds : List Nat) : Nat :=
  ds.foldl (fun acc d => acc * 10 + d) 0

/-- Parse a JSON string literal body after the opening quote, with the
common escapes; `\u` escapes are outside the modelled fragment. Fuel
bounds recursion; the top-level call supplies enough for any input. -/
def parseStrBody : Nat → List Char → Option (List Char × List Char)
  | 0, _ => none
  | _, [] => none
  | fuel + 1, c :: cs =>
    if c == '"' then some ([], cs)
    else if c == '\\' then
      match cs with
      | [] => none
      | e :: cs2 =>
        let esc : Option Char :=
          if e == '"' then some '"'
          else if e == '\\' then some '\\'
          else if e == '/' then some '/'
          else if e == 'n' then some '\n'
          else if e == 't' then some '\t'
          else if e == 'r' then some '\r'
          else if e == 'b' then some (Char.ofNat 8)
          else if e == 'f' then some (Char.ofNat 12)
          else none
        match esc with
        | none => none
        | some c2 =>
          match parseStrBody fuel cs2 with
          | none => none
          | some (body, rest) => some (c2 :: body, rest)
    else
      match parseStrBody fuel cs with
      | none => none
      | some (body, rest) => some (c :: body, rest)

/-- Parse a JSON number restricted to the integral fragment: optional
minus sign and a digit run, rejected when a fraction or exponent
follows (no payload in the program carries non-integral numbers). -/
def parseIntLit (cs : List Char) : Option (Int × List Char) :=
  let neg := cs.head? == some '-'
  let cs1 := if neg then cs.drop 1 else cs
  match takeDigits cs1 with
  | ([], _) => none
  | (ds, rest) =>
    match rest with
    | [] => some (if neg then -(digitsToNat ds : Int) else (digitsToNat ds : Int), [])
    | c :: _ =>
      if c == '.' || c == 'e' || c == 'E' then none
      else some (if neg then -(digitsToNat ds : Int) else (digitsToNat ds : Int), rest)

mutual

/-- Parse one JSON value from the head of the input. -/
def parseVal : Nat → List Char → Option (Json × List Char)
  | 0, _ => none
  | fuel + 1, cs =>
    match skipWs cs with
    | [] => none
    | c :: rest =>
      if c == '\x7b' then parseObjBody fuel rest true
      else if c == '[' then parseArrBody fuel rest true
      else if c == '"' then
        match parseStrBody (fuel + 1) rest with
        | none => none
        | some (body, rest2) => some (.jstr (String.mk body), rest2)
      else if c == 't' then
        match rest with
        | 'r' :: 'u' :: 'e' :: rest2 => some (.jbool true, rest2)
        | _ => none
      else if c == 'f' then
        match rest with
        | 'a' :: 'l' :: 's' :: 'e' :: rest2 => some (.jbool false, rest2)
        | _ => none
      else if c == 'n' then
        match rest with
        | 'u' :: 'l' :: 'l' :: rest2 => some (.jnull, rest2)
        | _ => none
      else
        match parseIntLit (c :: rest) with
        | none => none
        | some (n, rest2) => some (.jnum n, rest2)

/-- Parse the members of an object after `\x7b`; `first` is true before
any member has been read. -/
def parseObjBody : Nat → List Char → Bool → Option (Json × List Char)
  | 0, _, _ => none
  | fuel + 1, cs, first =>
    match skipWs cs with
    | [] => none
    | c :: rest =>
      if c == '\x7d' then some (.jobj [], rest)
      else
        let start :=
          if first then
            if c == '"' then some (c :: rest) else none
          else
            if c == ',' then
              match skipWs rest with
              | c2 :: rest2 => if c2 == '"' then some (c2 :: rest2) else none
              | [] => none
            else none
        match start with
        | none => none
        | some (_ :: afterQuote) =>
          match parseStrBody (fuel + 1) afterQuote with
          | none => none
          | some (keyBody, afterKey) =>
            match skipWs afterKey with
            | ':' :: afterColon =>
              match parseVal fuel afterColon with
              | none => none
              | some (v, afterVal) =>
                match parseObjBody fuel afterVal false with
                | none => none
                | some (.jobj fields, rest2) =>
                  some (.jobj ((String.mk keyBody, v) :: fields), rest2)
                | some _ => none
            | _ => none
        | some [] => none

/-- Parse the elements of an array after `[`; `first` is true before
any element has been read. -/
def parseArrBody : Nat → List Char → Bool → Option (Json × List Char)
  | 0, _, _ => none
  | fuel + 1, cs, first =>
    match skipWs cs with
    | [] => none
    | c :: rest =>
      if c == ']' then some (.jarr [], rest)
      else
        let start :=
          if first then some (c :: rest)
          else if c == ',' then some rest
          else none
        match start with
        | none => none
        | some cs2 =>
          match parseVal fuel cs2 with
          | none => none
          | some (v, afterVal) =>
            match parseArrBody fuel afterVal false with
            | none => none
            | some (.jarr elems, rest2) => some (.jarr (v :: elems), rest2)
            | some _ => none

end

/-- The `JSON.parse` model: parse one value and require only trailing
whitespace after it. `none` stands for a thrown `SyntaxError`. -/
def parseJson (s : String) : Option Json :=
  match parseVal (2 * s.data.length + 2) s.data with
  | none => none
  | some (v, rest) => if skipWs rest == [] then some v else none

/-- The fixed marker text `"A2A Agent Response: "`. -/
def a2aMarker : String := "A2A Agent Response: "

/-- JavaScript `s.startsWith(p)`: the first `p.length` code units of `s`
equal `p` (the strings involved are ASCII, so code units coincide with
characters). -/
def jsStartsWith (s p : String) : Bool :=
  s.data.take p.data.length == p.data

/-- JavaScript `s.substring(n)`: drop the first `n` code units. -/
def jsDropChars (s : String) (n : Nat) : String :=
  String.mk (s.data.drop n)

/-- The prefix-stripping step of `extractDataFromMessages`: when the
raw string result starts with the marker, drop the marker; otherwise
keep the string unchanged. -/
def stripA2A (result : String) : String :=
  if jsStartsWith result a2aMarker then jsDropChars result a2aMarker.data.length
  else result

/-- An item of the `visibleMessages` stream, restricted to the fields
the scan reads: the message kind discriminator, the action name, and
the raw result value (a string, an already-parsed structure, or any
other value). -/
structure MessageEvent where
  type : String
  actionName : String
  result : Json

/-- The normalization and parse steps applied to the raw result of a
relevant event: a string is prefix-stripped and parsed (`none` models a
`SyntaxError` swallowed by the surrounding `catch`); a non-null object
value (including an array, for which `typeof` is also "object") is used
directly; any other value leaves `parsed` undefined, so the `if (parsed)`
guard skips classification (`none` here too, the outcomes coincide). -/
def parseResult (result : Json) : Option Json :=
  match result with
  | .jstr s => parseJson (stripA2A s)
  | .jobj fields => some (.jobj fields)
  | .jarr elems => some (.jarr elems)
  | _ => none

/-- Processing of one stream item: only events with
`type === "ResultMessage"` and `actionName === "send_message_to_a2a_agent"`
are inspected; the rest are ignored with no side effect. -/
def processMessage (approvalStates : ApprovalMap) (msg : MessageEvent) : List Emit :=
  if msg.type == "ResultMessage" && msg.actionName == "send_message_to_a2a_agent" then
    match parseResult msg.result with
    | some parsed => processParsed approvalStates parsed
    | none => []
  else []

/-- The full scan `extractDataFromMessages`: every visible message is
processed in order, and the invocations of all events are concatenated;
a parse failure on one event never halts the processing of later ones. -/
def extractDataFromMessages (approvalStates : ApprovalMap) :
    List MessageEvent → List Emit
  | [] => []
  | msg :: rest =>
    processMessage approvalStates msg ++ extractDataFromMessages approvalStates rest

/-- A result event from an A2A agent carrying a raw string payload. -/
def strResultEvent (s : String) : MessageEvent :=
  ⟨"ResultMessage", "send_message_to_a2a_agent", .jstr s⟩


/-- A user action on the approval widget: a click on the approve or the
reject button for the budget keyed by `k`. -/
inductive UserAction where
  | approve (k : String)
  | reject (k : String)

/-- The budget key an action acts on. -/
def actionKey : UserAction → String
  | .approve k => k
  | .reject k => k

/-- The state update performed by one button click. -/
def applyAction (m : ApprovalMap) (a : UserAction) : ApprovalMap :=
  match a with
  | .approve k => recordApproval m k
  | .reject k => recordRejection m k

/-- Sequential application of a series of user actions. -/
def applyActions (m : ApprovalMap) (acts : List UserAction) : ApprovalMap :=
  acts.foldl applyAction m

/-- A decision has been recorded for `k`: the disabled-condition
`isApproved || isRejected` of both action buttons. -/
def decided (m : ApprovalMap) (k : String) : Bool :=
  (getState m k).approved || (getState m k).rejected

/-- An action sequence in which every click happens while its button is
enabled: the UI disables both buttons for a key once either decision is
recorded, so a legal action requires its key to be undecided. -/
inductive LegalFrom : ApprovalMap → List UserAction → Prop where
  | nil (m : ApprovalMap) : LegalFrom m []
  | cons (m : ApprovalMap) (a : UserAction) (acts : List UserAction) :
      decided m (actionKey a) = false → LegalFrom (applyAction m a) acts →
      LegalFrom m (a :: acts)

/-- A payload carrying both the itinerary and the budget shapes, used
to exhibit the priority ordering. -/
def dualShapePayload : Json :=
  .jobj [("destination", .jstr "Tokyo"), ("itinerary", .jarr []),
    ("totalBudget", .jnum 100), ("breakdown", .jarr [])]

/-- The budget payload of the spec's end-to-end scenario. -/
def sampleBudget : Json :=
  .jobj [("totalBudget", .jnum 1500),
    ("breakdown", .jarr [
      .jobj [("category", .jstr "Lodging"), ("amount", .jnum 900),
        ("percentage", .jnum 60)],
      .jobj [("category", .jstr "Food"), ("amount", .jnum 600),
        ("percentage", .jnum 40)]]),
    ("currency", .jstr "USD")]

/-- A zero-total budget payload with a well-formed breakdown array. -/
def zeroBudget : Json :=
  .jobj [("totalBudget", .jnum 0),
    ("breakdown", .jarr [.jobj [("category", .jstr "Lodging"),
      ("amount", .jnum 0), ("percentage", .jnum 0)]])]

/-- A destination together with an empty itinerary array. -/
def emptyItineraryPayload : Json :=
  .jobj [("destination", .jstr "Tokyo"), ("itinerary", .jarr [])]

/-- The raw weather string of the spec's prefix-handling scenario. -/
def tokyoWeatherRaw : String :=
  "A2A Agent Response: \x7b\"destination\":\"Tokyo\",\"forecast\":[]\x7d"

/-- The parsed weather payload of that scenario. -/
def tokyoWeather : Json :=
  .jobj [("destination", .jstr "Tokyo"), ("forecast", .jarr [])]


/-! Helper lemmas on the approval-state map. -/

/-- Replacing the entry at `k` does not change what `find?` sees for a
different key. -/
theorem find?_replaceAt_of_ne (m : ApprovalMap) (k k' : String) (v : ApprovalRec)
    (h : k' ≠ k) :
    (m.map (fun e => if e.1 == k then (k, v) else e)).find? (fun e => e.1 == k') =
      m.find? (fun e => e.1 == k') := by
  have hkk' : ((k : String) == k') = false :=
    beq_eq_false_iff_ne.mpr fun hc => h hc.symm
  induction m with
  | nil => rfl
  | cons e t ih =>
    by_cases hek : e.1 = k
    · rw [List.map_cons, if_pos (beq_iff_eq.mpr hek)]
      have he' : (e.1 == k') = false := by rw [hek]; exact hkk'
      simp only [List.find?_cons, hkk', he', cond_false]
      exact ih
    · rw [List.map_cons, if_neg (by rw [beq_eq_false_iff_ne.mpr hek]; exact Bool.false_ne_true)]
      by_cases hek2 : e.1 = k'
      · simp only [List.find?_cons, beq_iff_eq.mpr hek2, cond_true]
      · simp only [List.find?_cons, beq_eq_false_iff_ne.mpr hek2, cond_false]
        exact ih

/-- When `k` occurs in the map, replacing its entry makes `find?` for
`k` return the fresh entry. -/
theorem find?_replaceAt_self (m : ApprovalMap) (k : String) (v : ApprovalRec)
    (hmem : m.any (fun e => e.1 == k) = true) :
    (m.map (fun e => if e.1 == k then (k, v) else e)).find? (fun e => e.1 == k) =
      some (k, v) := by
  induction m with
  | nil => simp at hmem
  | cons e t ih =>
    by_cases hek : e.1 = k
    · rw [List.map_cons, if_pos (beq_iff_eq.mpr hek)]
      simp only [List.find?_cons, beq_self_eq_true, cond_true]
    · have hbek : (e.1 == k) = false := beq_eq_false_iff_ne.mpr hek
      rw [List.map_cons, if_neg (by rw [hbek]; exact Bool.false_ne_true)]
      simp only [List.find?_cons, hbek, cond_false]
      apply ih
      simp only [List.any_cons, hbek, Bool.false_or] at hmem
      exact hmem

/-- The record read back at the key just written is the written one. -/
theorem getRec_setKey_self (m : ApprovalMap) (k : String) (v : ApprovalRec) :
    getRec (setKey m k v) k = some v := by
  unfold getRec setKey
  by_cases hany : m.any (fun e => e.1 == k) = true
  · rw [if_pos hany, find?_replaceAt_self m k v hany]
    rfl
  · rw [if_neg hany, List.find?_append]
    have hnone : m.find? (fun e => e.1 == k) = none := by
      rw [List.find?_eq_none]
      intro x hx hpx
      exact hany (List.any_eq_true.mpr ⟨x, hx, hpx⟩)
    have hsingle : List.find? (fun e => e.1 == k) [(k, v)] = some (k, v) := by
      simp [List.find?_cons]
    rw [hnone, Option.none_or, hsingle]
    rfl

/-- Writing at `k` leaves the record at any other key unchanged. -/
theorem getRec_setKey_of_ne (m : ApprovalMap) (k k' : String) (v : ApprovalRec)
    (h : k' ≠ k) : getRec (setKey m k v) k' = getRec m k' := by
  unfold getRec setKey
  by_cases hany : m.any (fun e => e.1 == k) = true
  · rw [if_pos hany, find?_replaceAt_of_ne m k k' v h]
  · have hsingle : List.find? (fun e => e.1 == k') [(k, v)] = none := by
      simp [List.find?_cons, beq_eq_false_iff_ne.mpr (fun hc => h hc.symm)]
    rw [if_neg hany, List.find?_append, hsingle, Option.or_none]

/-- `getState` after a write: the written record at the written key,
the old record elsewhere. -/
theorem getState_setKey_self (m : ApprovalMap) (k : String) (v : ApprovalRec) :
    getState (setKey m k v) k = v := by
  unfold getState
  rw [getRec_setKey_self]
  rfl

/-- `getState` at a different key is unchanged by a write. -/
theorem getState_setKey_of_ne (m : ApprovalMap) (k k' : String) (v : ApprovalRec)
    (h : k' ≠ k) : getState (setKey m k v) k' = getState m k' := by
  unfold getState
  rw [getRec_setKey_of_ne m k k' v h]

/-- `isApprovedIn` reads true at a key just approved. -/
theorem isApprovedIn_recordApproval (m : ApprovalMap) (k : String) :
    isApprovedIn (recordApproval m k) k = true := by
  unfold isApprovedIn recordApproval
  rw [getRec_setKey_self]
  rfl

/-- `isApprovedIn` reads false at a key just rejected. -/
theorem isApprovedIn_recordRejection (m : ApprovalMap) (k : String) :
    isApprovedIn (recordRejection m k) k = false := by
  unfold isApprovedIn recordRejection
  rw [getRec_setKey_self]
  rfl

/-! Helper lemmas on the classification chain. -/

/-- A truthy property forces the parsed value to be an object, hence
itself truthy. -/
theorem truthy_of_getField (p : Json) (key : String)
    (h : truthy (getField p key) = true) : truthy (some p) = true := by
  cases p <;> simp [getField, truthy] at h ⊢

/-- A payload matching the itinerary shape takes the first branch. -/
theorem processParsed_itinerary (m : ApprovalMap) (p : Json)
    (h : itineraryShape p = true) :
    processParsed m p = [.itineraryUpdate p] := by
  have h' := h
  rw [itineraryShape, Bool.and_eq_true, Bool.and_eq_true] at h'
  have ht : truthy (some p) = true := truthy_of_getField p "destination" h'.1.1
  unfold processParsed
  rw [if_pos ht, if_pos h]

/-- A payload matching the budget shape but not the itinerary shape
takes the gated budget branch. -/
theorem processParsed_budget (m : ApprovalMap) (p : Json)
    (h1 : itineraryShape p = false) (h2 : budgetShape p = true) :
    processParsed m p =
      if isApprovedIn m (deriveKey p) then [.budgetUpdate p] else [] := by
  have h2' := h2
  rw [budgetShape, Bool.and_eq_true, Bool.and_eq_true] at h2'
  have ht : truthy (some p) = true := truthy_of_getField p "totalBudget" h2'.1.1
  unfold processParsed
  rw [if_pos ht, if_neg (by rw [h1]; exact Bool.false_ne_true), if_pos h2]

/-- A payload matching only the weather shape among the first three
takes the weather branch. -/
theorem processParsed_weather (m : ApprovalMap) (p : Json)
    (h1 : itineraryShape p = false) (h2 : budgetShape p = false)
    (h3 : weatherShape p = true) :
    processParsed m p = [.weatherUpdate p] := by
  have h3' := h3
  rw [weatherShape, Bool.and_eq_true, Bool.and_eq_true] at h3'
  have ht : truthy (some p) = true := truthy_of_getField p "destination" h3'.1.1
  unfold processParsed
  rw [if_pos ht, if_neg (by rw [h1]; exact Bool.false_ne_true),
    if_neg (by rw [h2]; exact Bool.false_ne_true), if_pos h3]

/-- A payload matching only the restaurant shape takes the restaurant
branch. -/
theorem processParsed_restaurant (m : ApprovalMap) (p : Json)
    (h1 : itineraryShape p = false) (h2 : budgetShape p = false)
    (h3 : weatherShape p = false) (h4 : restaurantShape p = true) :
    processParsed m p = [.restaurantUpdate p] := by
  have h4' := h4
  rw [restaurantShape, Bool.and_eq_true, Bool.and_eq_true] at h4'
  have ht : truthy (some p) = true := truthy_of_getField p "destination" h4'.1.1
  unfold processParsed
  rw [if_pos ht, if_neg (by rw [h1]; exact Bool.false_ne_true),
    if_neg (by rw [h2]; exact Bool.false_ne_true),
    if_neg (by rw [h3]; exact Bool.false_ne_true), if_pos h4]

/-- A payload matching no shape is discarded with no invocation. -/
theorem processParsed_unmatched (m : ApprovalMap) (p : Json)
    (h1 : itineraryShape p = false) (h2 : budgetShape p = false)
    (h3 : weatherShape p = false) (h4 : restaurantShape p = false) :
    processParsed m p = [] := by
  unfold processParsed
  by_cases ht : truthy (some p) = true
  · rw [if_pos ht, if_neg (by rw [h1]; exact Bool.false_ne_true),
      if_neg (by rw [h2]; exact Bool.false_ne_true),
      if_neg (by rw [h3]; exact Bool.false_ne_true),
      if_neg (by rw [h4]; exact Bool.false_ne_true)]
  · rw [if_neg ht]

/-- Only the budget branch can invoke the budget callback: a payload
that fails the budget shape never produces a budget invocation. -/
theorem budgetUpdate_not_mem (m : ApprovalMap) (p : Json)
    (h : budgetShape p = false) :
    ∀ d, Emit.budgetUpdate d ∉ processParsed m p := by
  intro d
  by_cases h1 : itineraryShape p = true
  · rw [processParsed_itinerary m p h1]
    simp
  · have h1' : itineraryShape p = false := Bool.eq_false_iff.mpr h1
    by_cases h3 : weatherShape p = true
    · rw [processParsed_weather m p h1' h h3]
      simp
    · have h3' : weatherShape p = false := Bool.eq_false_iff.mpr h3
      by_cases h4 : restaurantShape p = true
      · rw [processParsed_restaurant m p h1' h h3' h4]
        simp
      · rw [processParsed_unmatched m p h1' h h3' (Bool.eq_false_iff.mpr h4)]
        simp

/-! Helper lemmas on prefix stripping and the message scan. -/

/-- Stripping after prepending the marker recovers the original string. -/
theorem stripA2A_marker_append (s : String) :
    stripA2A (a2aMarker ++ s) = s := by
  have hdata : (a2aMarker ++ s).data = a2aMarker.data ++ s.data :=
    String.data_append a2aMarker s
  have hstart : jsStartsWith (a2aMarker ++ s) a2aMarker = true := by
    unfold jsStartsWith
    rw [hdata, List.take_left]
    exact beq_self_eq_true _
  unfold stripA2A
  rw [if_pos hstart]
  unfold jsDropChars
  rw [hdata, List.drop_left]


/-- A string that does not start with the marker is left unchanged. -/
theorem stripA2A_of_no_marker (s : String) (h : jsStartsWith s a2aMarker = false) :
    stripA2A s = s := by
  unfold stripA2A
  rw [if_neg (by rw [h]; exact Bool.false_ne_true)]

/-- A string-result event whose payload parses is classified on the
parsed value. -/
theorem processMessage_str_some (m : ApprovalMap) (s : String) (parsed : Json)
    (h : parseJson (stripA2A s) = some parsed) :
    processMessage m (strResultEvent s) = processParsed m parsed := by
  show (match parseJson (stripA2A s) with
    | some q => processParsed m q
    | none => ([] : List Emit)) = processParsed m parsed
  rw [h]

/-- A string-result event whose payload fails to parse performs no
invocation (the `SyntaxError` is caught and only logged). -/
theorem processMessage_str_none (m : ApprovalMap) (s : String)
    (h : parseJson (stripA2A s) = none) :
    processMessage m (strResultEvent s) = [] := by
  show (match parseJson (stripA2A s) with
    | some q => processParsed m q
    | none => ([] : List Emit)) = []
  rw [h]

/-- The scan processes the head event and then the remaining events. -/
theorem extractDataFromMessages_cons (m : ApprovalMap) (msg : MessageEvent)
    (rest : List MessageEvent) :
    extractDataFromMessages m (msg :: rest) =
      processMessage m msg ++ extractDataFromMessages m rest := rfl

/-- A relevant result event whose payload normalizes to `B` is
classified on `B`. -/
theorem processMessage_parsed (m : ApprovalMap) (msg : MessageEvent) (B : Json)
    (htype : msg.type = "ResultMessage")
    (hname : msg.actionName = "send_message_to_a2a_agent")
    (hres : parseResult msg.result = some B) :
    processMessage m msg = processParsed m B := by
  unfold processMessage
  rw [htype, hname, hres]
  rw [if_pos (by decide)]

/-! Claim theorems. -/

/-- C2: classification is exclusive and ordered. The shape predicates
are tested in the fixed priority order itinerary, budget, weather,
restaurant, and the first match wins; a payload matching both the
itinerary and the budget shapes is classified as Itinerary and never
produces a budget invocation; a payload matching no shape is discarded
with no invocation and no error. -/
theorem classification_exclusive_ordered (p : Json) (m : ApprovalMap) :
    (itineraryShape p = true → processParsed m p = [.itineraryUpdate p]) ∧
    (itineraryShape p = true → budgetShape p = true →
      ∀ d, Emit.budgetUpdate d ∉ processParsed m p) ∧
    (itineraryShape p = false → budgetShape p = true →
      processParsed m p =
        if isApprovedIn m (deriveKey p) then [.budgetUpdate p] else []) ∧
    (itineraryShape p = false → budgetShape p = false → weatherShape p = true →
      processParsed m p = [.weatherUpdate p]) ∧
    (itineraryShape p = false → budgetShape p = false → weatherShape p = false →
      restaurantShape p = true → processParsed m p = [.restaurantUpdate p]) ∧
    (itineraryShape p = false → budgetShape p = false → weatherShape p = false →
      restaurantShape p = false → processParsed m p = []) := by
  refine ⟨fun h1 => processParsed_itinerary m p h1, fun h1 _ d => ?_,
    processParsed_budget m p, processParsed_weather m p,
    processParsed_restaurant m p, processParsed_unmatched m p⟩
  rw [processParsed_itinerary m p h1]
  simp

/-- Witness for C2 at a payload carrying both `destination`+`itinerary`
and `totalBudget`+`breakdown`: it is classified as Itinerary, never as
Budget. -/
theorem classification_exclusive_ordered_witness :
    processParsed []
        (Json.jobj [("destination", .jstr "Rome"), ("itinerary", .jarr []),
          ("totalBudget", .jnum 2000), ("breakdown", .jarr [])]) =
      [Emit.itineraryUpdate
        (Json.jobj [("destination", .jstr "Rome"), ("itinerary", .jarr []),
          ("totalBudget", .jnum 2000), ("breakdown", .jarr [])])] ∧
    Emit.budgetUpdate
        (Json.jobj [("destination", .jstr "Rome"), ("itinerary", .jarr []),
          ("totalBudget", .jnum 2000), ("breakdown", .jarr [])]) ∉
      processParsed []
        (Json.jobj [("destination", .jstr "Rome"), ("itinerary", .jarr []),
          ("totalBudget", .jnum 2000), ("breakdown", .jarr [])]) :=
  ⟨(classification_exclusive_ordered _ []).1 (by rfl),
    (classification_exclusive_ordered _ []).2.1 (by rfl) (by rfl) _⟩

/-- No action in a sequence touches `k`: the state at `k` is unchanged
over the whole sequence. -/
theorem applyActions_untouched (acts : List UserAction) :
    ∀ m : ApprovalMap, ∀ k : String, (∀ a ∈ acts, actionKey a ≠ k) →
      getState (applyActions m acts) k = getState m k := by
  induction acts with
  | nil => intro m k _; rfl
  | cons a t ih =>
    intro m k h
    have hk : actionKey a ≠ k := h a (List.mem_cons_self a t)
    have hstep : getState (applyAction m a) k = getState m k := by
      cases a with
      | approve k0 => exact getState_setKey_of_ne m k0 k _ (fun hc => hk hc.symm)
      | reject k0 => exact getState_setKey_of_ne m k0 k _ (fun hc => hk hc.symm)
    calc getState (applyActions m (a :: t)) k
        = getState (applyActions (applyAction m a) t) k := rfl
      _ = getState (applyAction m a) k :=
          ih (applyAction m a) k (fun b hb => h b (List.mem_cons_of_mem a hb))
      _ = getState m k := hstep

/-- Every user action writes a one-sided record, so a map in which no
key is both approved and rejected stays that way. -/
theorem applyActions_not_both (acts : List UserAction) :
    ∀ m : ApprovalMap,
      (∀ k, ¬((getState m k).approved = true ∧ (getState m k).rejected = true)) →
      ∀ k, ¬((getState (applyActions m acts) k).approved = true ∧
        (getState (applyActions m acts) k).rejected = true) := by
  induction acts with
  | nil => intro m hm k; exact hm k
  | cons a t ih =>
    intro m hm k
    show ¬((getState (applyActions (applyAction m a) t) k).approved = true ∧
      (getState (applyActions (applyAction m a) t) k).rejected = true)
    apply ih
    intro k'
    by_cases hk : k' = actionKey a
    · cases a with
      | approve k0 =>
        rw [show getState (applyAction m (.approve k0)) k' = ⟨true, false⟩ from by
          rw [hk]; exact getState_setKey_self m k0 _]
        simp
      | reject k0 =>
        rw [show getState (applyAction m (.reject k0)) k' = ⟨false, true⟩ from by
          rw [hk]; exact getState_setKey_self m k0 _]
        simp
    · cases a with
      | approve k0 =>
        rw [show getState (applyAction m (.approve k0)) k' = getState m k' from
          getState_setKey_of_ne m k0 k' _ hk]
        exact hm k'
      | reject k0 =>
        rw [show getState (applyAction m (.reject k0)) k' = getState m k' from
          getState_setKey_of_ne m k0 k' _ hk]
        exact hm k'

/-- C3: starting from the empty approval-state map, after any sequence
of approve/reject actions no key's record has `approved` and `rejected`
both true, and a key no action ever wrote reads as
`{approved: false, rejected: false}`. -/
theorem approval_state_invariant (acts : List UserAction) (k : String) :
    (¬((getState (applyActions [] acts) k).approved = true ∧
       (getState (applyActions [] acts) k).rejected = true)) ∧
    ((∀ a ∈ acts, actionKey a ≠ k) →
      getState (applyActions [] acts) k = ⟨false, false⟩) := by
  constructor
  · exact applyActions_not_both acts []
      (fun k' => by rw [show getState [] k' = ⟨false, false⟩ from rfl]; simp) k
  · intro h
    rw [applyActions_untouched acts [] k h]
    rfl

/-- Witness for C3 after an approve and a reject on two other keys. -/
theorem approval_state_invariant_witness :
    getState (applyActions []
        [UserAction.approve "budget-1500", UserAction.reject "budget-2000"])
      "budget-100" = ⟨false, false⟩ :=
  (approval_state_invariant
      [UserAction.approve "budget-1500", UserAction.reject "budget-2000"]
      "budget-100").2 (by decide)

/-- Once a decision is recorded for `k`, a legal action sequence (every
click happens while its buttons are enabled) leaves the whole record at
`k` unchanged. -/
theorem decided_state_preserved (m : ApprovalMap) (acts : List UserAction) (k : String)
    (hleg : LegalFrom m acts) :
    decided m k = true → getState (applyActions m acts) k = getState m k := by
  induction hleg with
  | nil => intro _; rfl
  | cons m0 a acts hen _ ih =>
    intro hdec
    have hne : k ≠ actionKey a := by
      intro hc
      rw [hc, hen] at hdec
      exact Bool.false_ne_true hdec
    have hstep : getState (applyAction m0 a) k = getState m0 k := by
      cases a with
      | approve k0 => exact getState_setKey_of_ne m0 k0 k _ hne
      | reject k0 => exact getState_setKey_of_ne m0 k0 k _ hne
    have hdec' : decided (applyAction m0 a) k = true := by
      unfold decided at hdec ⊢
      rw [hstep]
      exact hdec
    calc getState (applyActions m0 (a :: acts)) k
        = getState (applyActions (applyAction m0 a) acts) k := rfl
      _ = getState (applyAction m0 a) k := ih hdec'
      _ = getState m0 k := hstep

/-- C4: the per-key approval state machine moves only from Pending to
Approved or from Pending to Rejected, and both are terminal: in a
session where actions are only taken while their buttons are enabled,
a key in the Approved record `{approved: true, rejected: false}` or the
Rejected record `{approved: false, rejected: true}` keeps exactly that
record over the rest of the session; no operation clears it. -/
theorem approval_decision_terminal (m : ApprovalMap) (acts : List UserAction)
    (k : String) (hleg : LegalFrom m acts) :
    (getState m k = ⟨true, false⟩ →
      getState (applyActions m acts) k = ⟨true, false⟩) ∧
    (getState m k = ⟨false, true⟩ →
      getState (applyActions m acts) k = ⟨false, true⟩) := by
  constructor
  · intro h
    rw [decided_state_preserved m acts k hleg (by unfold decided; rw [h]; rfl), h]
  · intro h
    rw [decided_state_preserved m acts k hleg (by unfold decided; rw [h]; rfl), h]

/-- Witness for C4: an approved key survives a later legal action on a
different key. -/
theorem approval_decision_terminal_witness :
    getState (applyActions [("budget-1500", (⟨true, false⟩ : ApprovalRec))]
        [UserAction.approve "budget-2000"]) "budget-1500" = ⟨true, false⟩ :=
  (approval_decision_terminal [("budget-1500", (⟨true, false⟩ : ApprovalRec))]
      [UserAction.approve "budget-2000"] "budget-1500"
      (LegalFrom.cons _ _ _ (by decide) (LegalFrom.nil _))).1 (by decide)

/-- C10: recording an approval or a rejection for key `k` writes only
the record at `k`: every other key's record (present or absent) reads
back unchanged. -/
theorem approval_update_frame (m : ApprovalMap) (k k' : String) (h : k' ≠ k) :
    getRec (recordApproval m k) k' = getRec m k' ∧
    getRec (recordRejection m k) k' = getRec m k' :=
  ⟨getRec_setKey_of_ne m k k' _ h, getRec_setKey_of_ne m k k' _ h⟩

/-- Witness for C10: a decided record at another key is untouched by
both handlers. -/
theorem approval_update_frame_witness :
    getRec (recordApproval [("budget-900", (⟨false, true⟩ : ApprovalRec))]
        "budget-1500") "budget-900" = some ⟨false, true⟩ ∧
    getRec (recordRejection [("budget-900", (⟨false, true⟩ : ApprovalRec))]
        "budget-1500") "budget-900" = some ⟨false, true⟩ := by
  have h := approval_update_frame [("budget-900", (⟨false, true⟩ : ApprovalRec))]
    "budget-1500" "budget-900" (by decide)
  exact ⟨h.1.trans (by rfl), h.2.trans (by rfl)⟩

/-- C1 counterexample: the claim quantifies over every payload with a
truthy `totalBudget` and an array `breakdown`, but such a payload that
also matches the itinerary shape is classified as Itinerary first, so
even with `approved = true` recorded at its derived key the scan never
invokes the budget callback for the event carrying it. -/
theorem budget_gate_shape_only_counterexample :
    truthy (getField dualShapePayload "totalBudget") = true ∧
    isArray (getField dualShapePayload "breakdown") = true ∧
    isApprovedIn (recordApproval [] (deriveKey dualShapePayload))
      (deriveKey dualShapePayload) = true ∧
    Emit.budgetUpdate dualShapePayload ∉
      extractDataFromMessages (recordApproval [] (deriveKey dualShapePayload))
        [⟨"ResultMessage", "send_message_to_a2a_agent", dualShapePayload⟩] := by
  refine ⟨rfl, rfl, rfl, ?_⟩
  intro hmem
  rw [show extractDataFromMessages (recordApproval [] (deriveKey dualShapePayload))
      [⟨"ResultMessage", "send_message_to_a2a_agent", dualShapePayload⟩] =
      [Emit.itineraryUpdate dualShapePayload] from rfl] at hmem
  simp at hmem

/-- C1 (amended): for every budget payload B — truthy `totalBudget`,
array `breakdown`, and not matching the itinerary shape, which takes
priority — carried by a relevant result event, the scan invokes the
budget callback with B iff the approval map holds `approved = true` at
`deriveKey B`; after `recordApproval (deriveKey B)` a re-scan of the
event invokes it with B, and after `recordRejection (deriveKey B)`
instead it is never invoked for that event. -/
theorem budget_gate_approval_iff (msg : MessageEvent) (m : ApprovalMap) (B : Json)
    (htype : msg.type = "ResultMessage")
    (hname : msg.actionName = "send_message_to_a2a_agent")
    (hres : parseResult msg.result = some B)
    (hit : itineraryShape B = false) (hbud : budgetShape B = true) :
    ((Emit.budgetUpdate B ∈ processMessage m msg) ↔
      isApprovedIn m (deriveKey B) = true) ∧
    processMessage (recordApproval m (deriveKey B)) msg = [Emit.budgetUpdate B] ∧
    (∀ d, Emit.budgetUpdate d ∉
      processMessage (recordRejection m (deriveKey B)) msg) := by
  have hmsg : ∀ m' : ApprovalMap, processMessage m' msg = processParsed m' B :=
    fun m' => processMessage_parsed m' msg B htype hname hres
  refine ⟨?_, ?_, ?_⟩
  · rw [hmsg m, processParsed_budget m B hit hbud]
    by_cases happ : isApprovedIn m (deriveKey B) = true
    · rw [if_pos happ]
      simp [happ]
    · rw [if_neg happ]
      simp [happ]
  · rw [hmsg, processParsed_budget _ B hit hbud,
      if_pos (isApprovedIn_recordApproval m (deriveKey B))]
  · intro d
    rw [hmsg, processParsed_budget _ B hit hbud,
      if_neg (by rw [isApprovedIn_recordRejection m (deriveKey B)]; exact Bool.false_ne_true)]
    simp

/-- Witness for C1 (amended) at the end-to-end budget payload: after
approval of its key, a re-scan of the event invokes the budget callback
with the full payload. -/
theorem budget_gate_approval_iff_witness :
    processMessage (recordApproval [] (deriveKey sampleBudget))
        ⟨"ResultMessage", "send_message_to_a2a_agent", sampleBudget⟩ =
      [Emit.budgetUpdate sampleBudget] :=
  (budget_gate_approval_iff
    ⟨"ResultMessage", "send_message_to_a2a_agent", sampleBudget⟩
    [] sampleBudget rfl rfl rfl rfl rfl).2.1

/-- C5: the derived approval key is a function of the `totalBudget`
field only, so two budget payloads sharing a total share one approval
state: under every approval map the gate forwards one iff it forwards
the other. -/
theorem derive_key_total_only (p1 p2 : Json)
    (h : getField p1 "totalBudget" = getField p2 "totalBudget") :
    deriveKey p1 = deriveKey p2 ∧
    (∀ m : ApprovalMap, itineraryShape p1 = false → budgetShape p1 = true →
      itineraryShape p2 = false → budgetShape p2 = true →
      ((Emit.budgetUpdate p1 ∈ processParsed m p1) ↔
        (Emit.budgetUpdate p2 ∈ processParsed m p2))) := by
  have hkey : deriveKey p1 = deriveKey p2 := by
    unfold deriveKey
    rw [h]
  refine ⟨hkey, fun m h1 h2 h3 h4 => ?_⟩
  rw [processParsed_budget m p1 h1 h2, processParsed_budget m p2 h3 h4, ← hkey]
  by_cases happ : isApprovedIn m (deriveKey p1) = true
  · rw [if_pos happ, if_pos happ]
    simp
  · rw [if_neg happ, if_neg happ]
    simp

/-- Witness for C5: the sample budget and a differently broken-down
budget with the same total map to one key and are forwarded alike. -/
theorem derive_key_total_only_witness :
    deriveKey sampleBudget =
      deriveKey (Json.jobj [("totalBudget", .jnum 1500),
        ("breakdown", .jarr [])]) ∧
    ((Emit.budgetUpdate sampleBudget ∈
        processParsed (recordApproval [] "budget-1500") sampleBudget) ↔
      (Emit.budgetUpdate (Json.jobj [("totalBudget", .jnum 1500),
          ("breakdown", .jarr [])]) ∈
        processParsed (recordApproval [] "budget-1500")
          (Json.jobj [("totalBudget", .jnum 1500), ("breakdown", .jarr [])]))) :=
  have h := derive_key_total_only sampleBudget
    (Json.jobj [("totalBudget", .jnum 1500), ("breakdown", .jarr [])]) rfl
  ⟨h.1, h.2 (recordApproval [] "budget-1500") rfl rfl rfl rfl⟩

/-- C6: a falsy `totalBudget` (for example 0) fails the truthiness
check, so the payload is not classified as Budget even with a valid
breakdown array and the budget callback is never invoked for it. -/
theorem falsy_total_budget_unclassified (p : Json) (m : ApprovalMap)
    (h : truthy (getField p "totalBudget") = false) :
    budgetShape p = false ∧ ∀ d, Emit.budgetUpdate d ∉ processParsed m p := by
  have hshape : budgetShape p = false := by
    unfold budgetShape
    rw [h]
    rfl
  exact ⟨hshape, budgetUpdate_not_mem m p hshape⟩

/-- Witness for C6 at a zero-cost budget with a well-formed breakdown. -/
theorem falsy_total_budget_unclassified_witness :
    isArray (getField zeroBudget "breakdown") = true ∧
    budgetShape zeroBudget = false ∧
    Emit.budgetUpdate zeroBudget ∉ processParsed [] zeroBudget :=
  have h := falsy_total_budget_unclassified zeroBudget [] rfl
  ⟨rfl, h.1, h.2 zeroBudget⟩

/-- C7: a string result whose payload is not valid JSON after
prefix-stripping produces no invocation and no escaping error (the
catch swallows the parse failure, modelled by the total `none` branch),
and the processing of all subsequent events is unchanged. -/
theorem malformed_payload_discarded (s : String) (m : ApprovalMap)
    (rest : List MessageEvent) (h : parseJson (stripA2A s) = none) :
    processMessage m (strResultEvent s) = [] ∧
    extractDataFromMessages m (strResultEvent s :: rest) =
      extractDataFromMessages m rest := by
  have h1 := processMessage_str_none m s h
  refine ⟨h1, ?_⟩
  rw [extractDataFromMessages_cons, h1, List.nil_append]

/-- Witness for C7: the spec's malformed payload is discarded and a
following weather event is still processed identically. -/
theorem malformed_payload_discarded_witness :
    processMessage [] (strResultEvent "A2A Agent Response: \x7bnot json") = [] ∧
    extractDataFromMessages []
        (strResultEvent "A2A Agent Response: \x7bnot json"
          :: [strResultEvent tokyoWeatherRaw]) =
      extractDataFromMessages [] [strResultEvent tokyoWeatherRaw] :=
  malformed_payload_discarded "A2A Agent Response: \x7bnot json" []
    [strResultEvent tokyoWeatherRaw] rfl

/-- C8 counterexample: prefix-stripping is not classification-invariant
for every string. Prepending the marker to a string that itself starts
with the marker strips only one copy, leaving non-JSON text that fails
to parse, while the original string classifies as Weather. -/
theorem marker_strip_counterexample :
    processMessage [] (strResultEvent (a2aMarker ++ tokyoWeatherRaw)) ≠
      processMessage [] (strResultEvent tokyoWeatherRaw) := by
  intro hc
  rw [show processMessage [] (strResultEvent (a2aMarker ++ tokyoWeatherRaw)) = []
      from rfl,
    show processMessage [] (strResultEvent tokyoWeatherRaw) =
      [Emit.weatherUpdate tokyoWeather] from rfl] at hc
  exact List.noConfusion hc

/-- C8 (amended): prefix-stripping is classification-invariant for
every string payload that does not itself start with the marker; the
spec's raw weather string classifies as Weather with destination Tokyo
and an empty forecast sequence, identically to the unprefixed JSON. -/
theorem marker_strip_invariant (m : ApprovalMap) :
    (∀ s : String, jsStartsWith s a2aMarker = false →
      processMessage m (strResultEvent (a2aMarker ++ s)) =
        processMessage m (strResultEvent s)) ∧
    processMessage m (strResultEvent tokyoWeatherRaw) =
      [Emit.weatherUpdate tokyoWeather] ∧
    processMessage m
        (strResultEvent "\x7b\"destination\":\"Tokyo\",\"forecast\":[]\x7d") =
      [Emit.weatherUpdate tokyoWeather] := by
  refine ⟨fun s hs => ?_, ?_, ?_⟩
  · have hparse : parseJson (stripA2A (a2aMarker ++ s)) = parseJson (stripA2A s) := by
      rw [stripA2A_marker_append, stripA2A_of_no_marker s hs]
    cases hp : parseJson (stripA2A s) with
    | none =>
      rw [processMessage_str_none m _ (hparse.trans hp),
        processMessage_str_none m s hp]
    | some q =>
      rw [processMessage_str_some m _ q (hparse.trans hp),
        processMessage_str_some m s q hp]
  · rw [processMessage_str_some m tokyoWeatherRaw tokyoWeather (by rfl)]
    exact processParsed_weather m tokyoWeather rfl rfl rfl
  · rw [processMessage_str_some m _ tokyoWeather (by rfl)]
    exact processParsed_weather m tokyoWeather rfl rfl rfl

/-- Witness for C8 (amended) at a marker-free payload. -/
theorem marker_strip_invariant_witness :
    processMessage [] (strResultEvent (a2aMarker ++ "\x7b\x7d")) =
      processMessage [] (strResultEvent "\x7b\x7d") :=
  (marker_strip_invariant []).1 "\x7b\x7d" rfl

/-- C9 counterexample: the classifier requires `itinerary` only to be
an array, so a payload with a non-empty string destination and an
empty itinerary sequence is classified as Itinerary and the itinerary
callback is invoked with it, contrary to the claim. -/
theorem empty_itinerary_counterexample :
    getField emptyItineraryPayload "destination" = some (.jstr "Tokyo") ∧
    getField emptyItineraryPayload "itinerary" = some (.jarr []) ∧
    Emit.itineraryUpdate emptyItineraryPayload ∈
      processParsed [] emptyItineraryPayload := by
  refine ⟨rfl, rfl, ?_⟩
  rw [show processParsed [] emptyItineraryPayload =
    [Emit.itineraryUpdate emptyItineraryPayload] from rfl]
  simp

/-- C9 (amended): a payload with a truthy (non-empty) string
destination and an `itinerary` field that is an array — possibly
empty — is classified as Itinerary and the itinerary callback is
invoked with it: the classifier requires only `Array.isArray` on the
itinerary field, not non-emptiness. -/
theorem empty_itinerary_classified (p : Json) (m : ApprovalMap) (d : String)
    (hdest : getField p "destination" = some (.jstr d)) (hd : d ≠ "")
    (hitin : isArray (getField p "itinerary") = true) :
    processParsed m p = [.itineraryUpdate p] := by
  have hshape : itineraryShape p = true := by
    obtain ⟨es, hes⟩ : ∃ es, getField p "itinerary" = some (.jarr es) := by
      cases hx : getField p "itinerary" with
      | none => rw [hx] at hitin; exact absurd hitin (by simp [isArray])
      | some v =>
        cases v with
        | jarr es => exact ⟨es, rfl⟩
        | jnull => rw [hx] at hitin; exact absurd hitin (by simp [isArray])
        | jbool b => rw [hx] at hitin; exact absurd hitin (by simp [isArray])
        | jnum n => rw [hx] at hitin; exact absurd hitin (by simp [isArray])
        | jstr s => rw [hx] at hitin; exact absurd hitin (by simp [isArray])
        | jobj f => rw [hx] at hitin; exact absurd hitin (by simp [isArray])
    unfold itineraryShape
    rw [hdest, hes]
    simp [truthy, isArray, hd]
  exact processParsed_itinerary m p hshape

/-- Witness for C9 (amended) at the empty-itinerary payload. -/
theorem empty_itinerary_classified_witness :
    processParsed [] emptyItineraryPayload =
      [Emit.itineraryUpdate emptyItineraryPayload] :=
  empty_itinerary_classified emptyItineraryPayload [] "Tokyo" rfl (by decide) rfl
